import Mathlib

/-!
Verification development for the benchmark-run data model and
comparison-report pipeline of the Nvidia Jetson-vs-PC comparison
repository, together with the repository's runner scripts
(`src/unnamed/part_000`, the Windows batch runner, and
`src/compare with classical cpu and gpu/jetson_nano/compare_nano.sh`,
the two Jetson shell runners).

The comparison pipeline itself (per-frame timer, metrics aggregator,
record loading, `compare`, `render`) is invoked by the runner scripts
(`windows_pc_phase1.py`, `visual_dashboard.py`, ...) but its code is not
part of the repository snapshot; those components are modelled from the
specification, as marked on each definition.
-/

/-- Modelled from the spec: association-list lookup used for metric and
stage maps (`stages_ms`, `resources` are JSON objects, i.e. ordered
string-keyed maps). Returns the value of the first matching key. -/
def findVal (n : String) : List (String × ℚ) → Option ℚ
  | [] => none
  | (k, v) :: rest => if k = n then some v else findVal n rest

/-- Modelled from the spec: `RunMetrics`, the aggregate over all
FrameTimings in a run (§3): frame count, elapsed wall time, derived FPS,
per-stage average durations, optional resource statistics. Absent stage
and resource fields are an empty map, distinguishable from zero. -/
structure RunMetrics where
  frameCount : Nat
  elapsedSeconds : ℚ
  fps : ℚ
  avgLatencyMs : ℚ
  stagesMs : List (String × ℚ)
  resources : List (String × ℚ)
  deriving Repr, DecidableEq

/-- Modelled from the spec: `RunResultRecord`, the persisted unit (§3, §6):
platform identifier, phase identifier, model identifier, the aggregated
metrics, and a creation timestamp. -/
structure RunResultRecord where
  platform : String
  phase : String
  model : String
  frameCount : Nat
  elapsedSeconds : ℚ
  fps : ℚ
  avgLatencyMs : ℚ
  stagesMs : List (String × ℚ)
  resources : List (String × ℚ)
  generatedAt : String
  deriving Repr, DecidableEq

/-- Modelled from the spec: one compared metric in a `ComparisonResult`:
the metric name, the pair of values, the delta, and the ratio (guarded
against a zero denominator). -/
structure MetricPair where
  name : String
  valueA : ℚ
  valueB : ℚ
  delta : ℚ
  relAB : Option ℚ
  deriving Repr, DecidableEq

/-- Modelled from the spec: `IncomparableRecordsError` — comparing two
records whose phase identifiers differ is a user error (§4.3, §7). -/
inductive IncomparableRecordsError where
  | phaseMismatch (phaseA phaseB : String)
  deriving Repr, DecidableEq

/-- Modelled from the spec: the fixed "advantage" direction lookup table
(§4.3): `some true` means higher wins, `some false` means lower wins,
`none` means no documented direction for this metric. -/
def advantageDirection (n : String) : Option Bool :=
  if n = "fps" then some true
  else if n = "avg_latency_ms" then some false
  else if n = "power_w" then some false
  else if n = "power_per_fps" then some false
  else none

/-- Modelled from the spec: `ComparisonResult` (§3): for each metric name
present in both records the compared pair, the names present in exactly
one record reported as not-comparable, and qualitative advantage flags. -/
structure ComparisonResult where
  compared : List MetricPair
  notComparable : List String
  advantages : List (String × String)
  deriving Repr, DecidableEq

/-- Modelled from the spec: the flat metric map of a record offered to
comparison: the required `fps` and `avg_latency_ms` fields, then the
per-platform stage map and resource map (§3, §6). -/
def metricsOf (r : RunResultRecord) : List (String × ℚ) :=
  ("fps", r.fps) :: ("avg_latency_ms", r.avgLatencyMs) :: (r.stagesMs ++ r.resources)

/-- Modelled from the spec: build one compared pair from a shared metric. -/
def mkPair (n : String) (va vb : ℚ) : MetricPair :=
  { name := n, valueA := va, valueB := vb, delta := va - vb,
    relAB := if vb = 0 then none else some (va / vb) }

/-- Modelled from the spec: which platform wins a compared metric, from
the fixed direction table. -/
def advantageOf (p : MetricPair) : Option (String × String) :=
  match advantageDirection p.name with
  | none => none
  | some higherWins =>
    if higherWins then
      some (p.name, if p.valueB < p.valueA then "A" else "B")
    else
      some (p.name, if p.valueA < p.valueB then "A" else "B")

/-- Modelled from the spec: `compare(record_a, record_b)` (§4.3). Fails
with `IncomparableRecordsError` when the phase identifiers differ, before
any comparison computation; otherwise pairs exactly the metric names
present in both records and reports the rest as not-comparable. -/
def compareRecords (a b : RunResultRecord) : Except IncomparableRecordsError ComparisonResult :=
  if a.phase = b.phase then
    let ma := metricsOf a
    let mb := metricsOf b
    let compared := ma.filterMap (fun p =>
      match findVal p.1 mb with
      | some vb => some (mkPair p.1 p.2 vb)
      | none => none)
    Except.ok
      { compared := compared
        notComparable :=
          (ma.map Prod.fst).filter (fun n => (findVal n mb).isNone) ++
          (mb.map Prod.fst).filter (fun n => (findVal n ma).isNone)
        advantages := compared.filterMap advantageOf }
  else
    Except.error (.phaseMismatch a.phase b.phase)

/-- Modelled from the spec: `FrameTiming`, one processing attempt for one
frame (§3): frame index, stage-name-to-duration map, total latency,
completion timestamp. -/
structure FrameTiming where
  frameIndex : Nat
  stages : List (String × ℚ)
  totalLatencyMs : ℚ
  completedAt : ℚ
  deriving Repr, DecidableEq

/-- Modelled from the spec: a periodic host resource sample (§4.2), a
named-value map (CPU%, memory%, GPU%, temperature, power — each
optional, platform-dependent). -/
structure ResourceSample where
  values : List (String × ℚ)
  deriving Repr, DecidableEq

/-- Modelled from the spec: the per-frame timer's state (§4.1): stages
begun but not yet ended (with their start timestamps) and stages already
ended (with their durations), for the current frame only — the timer
holds no cross-frame state. -/
structure TimerState where
  frameIndex : Nat
  openStages : List (String × ℚ)
  doneStages : List (String × ℚ)
  deriving Repr, DecidableEq

/-- Modelled from the spec: the timer for a fresh frame. -/
def initTimer (idx : Nat) : TimerState :=
  { frameIndex := idx, openStages := [], doneStages := [] }

/-- Modelled from the spec: `IncompleteFrameError` — a timer stage
mismatch (§7): a stage begun but never ended at `finalize_frame()`, or a
stage ended that was never begun. -/
inductive IncompleteFrameError where
  | stillOpen (names : List String)
  | endedWithoutBegin (name : String)
  deriving Repr, DecidableEq

/-- Modelled from the spec: `begin_stage(name)` records the stage as open
with its start timestamp. -/
def beginStage (name : String) (t : ℚ) (s : TimerState) : TimerState :=
  { s with openStages := (name, t) :: s.openStages }

/-- Modelled from the spec: remove the first open entry for a stage name,
returning its start timestamp and the remaining open stages. -/
def takeStage (name : String) : List (String × ℚ) → Option (ℚ × List (String × ℚ))
  | [] => none
  | (k, t) :: rest =>
    if k = name then some (t, rest)
    else (takeStage name rest).map (fun p => (p.1, (k, t) :: p.2))

/-- Modelled from the spec: `end_stage(name)` closes an open stage,
recording its duration up to timestamp `t`; ending a stage that was
never begun is a stage mismatch. -/
def endStage (name : String) (t : ℚ) (s : TimerState) : Option TimerState :=
  match takeStage name s.openStages with
  | none => none
  | some (t0, rest) =>
    some { s with openStages := rest, doneStages := (name, t - t0) :: s.doneStages }

/-- Modelled from the spec: `finalize_frame()` (§4.1): fails with
`IncompleteFrameError` if any stage was begun but never ended, otherwise
returns the FrameTiming whose stage map is exactly the ended stages. -/
def finalizeFrame (t : ℚ) (s : TimerState) : Except IncompleteFrameError FrameTiming :=
  if s.openStages = [] then
    Except.ok
      { frameIndex := s.frameIndex
        stages := s.doneStages.reverse
        totalLatencyMs := (s.doneStages.map Prod.snd).sum
        completedAt := t }
  else
    Except.error (.stillOpen (s.openStages.map Prod.fst))

/-- Modelled from the spec: one timer event of a frame's processing. -/
inductive TimerEvent where
  | beginEv (name : String) (t : ℚ)
  | endEv (name : String) (t : ℚ)
  deriving Repr, DecidableEq

/-- Modelled from the spec: one timer step; an `end` with no matching
open stage is a stage mismatch and aborts the frame. -/
def stepTimer (s : TimerState) : TimerEvent → Option TimerState
  | .beginEv n t => some (beginStage n t s)
  | .endEv n t => endStage n t s

/-- Modelled from the spec: run a sequence of timer events from a state. -/
def runTimer (s : TimerState) : List TimerEvent → Option TimerState
  | [] => some s
  | e :: rest =>
    match stepTimer s e with
    | none => none
    | some s2 => runTimer s2 rest

/-- Names of the stages begun in a timer event trace, in order. -/
def begunNames (evs : List TimerEvent) : List String :=
  evs.filterMap (fun e => match e with | .beginEv n _ => some n | .endEv _ _ => none)

/-- Names of the stages ended in a timer event trace, in order. -/
def endedNames (evs : List TimerEvent) : List String :=
  evs.filterMap (fun e => match e with | .beginEv _ _ => none | .endEv n _ => some n)

/-- Modelled from the spec: the Metrics Aggregator's state (§4.2): running
sums and counts folded from FrameTimings and resource samples, plus the
cached immutable RunMetrics once `finish()` has been called. -/
structure AggState where
  frameCount : Nat
  elapsedSeconds : ℚ
  latencySumMs : ℚ
  stageSums : List (String × (ℚ × Nat))
  resourceSums : List (String × (ℚ × Nat))
  finished : Option RunMetrics
  deriving Repr, DecidableEq

/-- Modelled from the spec: a fresh aggregator with nothing observed. -/
def initAgg : AggState :=
  { frameCount := 0, elapsedSeconds := 0, latencySumMs := 0,
    stageSums := [], resourceSums := [], finished := none }

/-- Modelled from the spec: fold one named value into a running
sum-and-count map, in O(1) amortized per entry. -/
def addSample (sums : List (String × (ℚ × Nat))) (n : String) (v : ℚ) :
    List (String × (ℚ × Nat)) :=
  match sums with
  | [] => [(n, (v, 1))]
  | (k, (s, c)) :: rest =>
    if k = n then (k, (s + v, c + 1)) :: rest
    else (k, (s, c)) :: addSample rest n v

/-- Modelled from the spec: `observe(frame_timing)` (§4.2) updates running
sums and counts; once `finish()` has made the RunMetrics immutable,
further observations are ignored. -/
def observe (ft : FrameTiming) (s : AggState) : AggState :=
  if s.finished.isSome then s
  else
    { s with
      frameCount := s.frameCount + 1
      elapsedSeconds := max s.elapsedSeconds ft.completedAt
      latencySumMs := s.latencySumMs + ft.totalLatencyMs
      stageSums := ft.stages.foldl (fun acc p => addSample acc p.1 p.2) s.stageSums }

/-- Modelled from the spec: `observe_resource_sample(sample)` (§4.2)
updates resource running statistics at its own cadence. -/
def observeResource (rs : ResourceSample) (s : AggState) : AggState :=
  if s.finished.isSome then s
  else
    { s with
      resourceSums := rs.values.foldl (fun acc p => addSample acc p.1 p.2) s.resourceSums }

/-- Modelled from the spec: average a running sum-and-count map, guarding
every division by a zero count. -/
def averages (sums : List (String × (ℚ × Nat))) : List (String × ℚ) :=
  sums.map (fun p => (p.1, if p.2.2 = 0 then 0 else p.2.1 / (p.2.2 : ℚ)))

/-- Modelled from the spec: the RunMetrics computed at `finish()` (§3,
§4.2): FPS is recomputed as frame count over elapsed time, never
independently settable; zero frames observed yields FPS = 0 and all
stage and resource fields absent rather than a division by zero. -/
def computeMetrics (s : AggState) : RunMetrics :=
  if s.frameCount = 0 then
    { frameCount := 0, elapsedSeconds := s.elapsedSeconds, fps := 0,
      avgLatencyMs := 0, stagesMs := [], resources := [] }
  else
    { frameCount := s.frameCount
      elapsedSeconds := s.elapsedSeconds
      fps := if s.elapsedSeconds = 0 then 0 else (s.frameCount : ℚ) / s.elapsedSeconds
      avgLatencyMs := s.latencySumMs / (s.frameCount : ℚ)
      stagesMs := averages s.stageSums
      resources := averages s.resourceSums }

/-- Modelled from the spec: `finish()` (§4.2) marks the RunMetrics
immutable and is idempotent: the first call caches the computed metrics
and every later call returns the cached value unchanged. -/
def finish (s : AggState) : AggState × RunMetrics :=
  match s.finished with
  | some m => (s, m)
  | none =>
    let m := computeMetrics s
    ({ s with finished := some m }, m)

/-- Modelled from the spec: one intake event of the aggregator: either a
finalized FrameTiming or a periodic resource sample (§4.2, §5 — the two
writers are serialized, so a run is a single event sequence). -/
inductive AggEvent where
  | frameEv (ft : FrameTiming)
  | resourceEv (rs : ResourceSample)
  deriving Repr, DecidableEq

/-- Whether an aggregator event is a frame observation. -/
def AggEvent.isFrame : AggEvent → Bool
  | .frameEv _ => true
  | .resourceEv _ => false

/-- Modelled from the spec: deliver one event to the aggregator. -/
def stepAgg (s : AggState) : AggEvent → AggState
  | .frameEv ft => observe ft s
  | .resourceEv rs => observeResource rs s

/-- Modelled from the spec: fold a run's event sequence into the
aggregator. -/
def runAgg (evs : List AggEvent) : AggState :=
  evs.foldl stepAgg initAgg

/-- Modelled from the spec: the JSON values a persisted record file can
hold (§6). -/
inductive Json where
  | null
  | bool (b : Bool)
  | num (q : ℚ)
  | str (s : String)
  | arr (xs : List Json)
  | obj (fields : List (String × Json))
  deriving Repr

/-- Look up a field of a JSON object's field list. -/
def lookupField (n : String) : List (String × Json) → Option Json
  | [] => none
  | (k, v) :: rest => if k = n then some v else lookupField n rest

/-- Modelled from the spec: `MalformedRecordError` (§7) — persisted JSON
missing required fields or holding a wrongly-typed field, surfaced at
load time. -/
inductive MalformedRecordError where
  | notAnObject
  | missingField (name : String)
  | wrongType (name : String)
  deriving Repr, DecidableEq

/-- Modelled from the spec: read a required numeric field; a missing
field is `missingField`, never a silent default of 0. -/
def reqNum (o : List (String × Json)) (n : String) : Except MalformedRecordError ℚ :=
  match lookupField n o with
  | none => Except.error (.missingField n)
  | some (Json.num q) => Except.ok q
  | some _ => Except.error (.wrongType n)

/-- Modelled from the spec: read a required string field. -/
def reqStr (o : List (String × Json)) (n : String) : Except MalformedRecordError String :=
  match lookupField n o with
  | none => Except.error (.missingField n)
  | some (Json.str s) => Except.ok s
  | some _ => Except.error (.wrongType n)

/-- Modelled from the spec: read a required non-negative integer field
(`frame_count`, §6). -/
def reqNat (o : List (String × Json)) (n : String) : Except MalformedRecordError Nat :=
  match reqNum o n with
  | Except.error e => Except.error e
  | Except.ok q => if q.den = 1 ∧ 0 ≤ q then Except.ok q.num.toNat else Except.error (.wrongType n)

/-- Modelled from the spec: read an optional object-of-numbers field
(`stages_ms`, `resources`, §6); absent means an empty map. -/
def optNumMap (o : List (String × Json)) (n : String) :
    Except MalformedRecordError (List (String × ℚ)) :=
  match lookupField n o with
  | none => Except.ok []
  | some (Json.obj fields) =>
    fields.foldr (fun p acc =>
      match acc with
      | Except.error e => Except.error e
      | Except.ok rest =>
        match p.2 with
        | Json.num q => Except.ok ((p.1, q) :: rest)
        | _ => Except.error (.wrongType n)) (Except.ok [])
  | some _ => Except.error (.wrongType n)

/-- Modelled from the spec: load a persisted RunResultRecord from JSON
(§6): every required field must be present and well-typed, otherwise the
load fails with `MalformedRecordError` and nothing is defaulted. -/
def loadRecord (j : Json) : Except MalformedRecordError RunResultRecord :=
  match j with
  | Json.obj o => do
    let platform ← reqStr o "platform"
    let phase ← reqStr o "phase"
    let model ← reqStr o "model"
    let frameCount ← reqNat o "frame_count"
    let elapsedSeconds ← reqNum o "elapsed_seconds"
    let fps ← reqNum o "fps"
    let avgLatencyMs ← reqNum o "avg_latency_ms"
    let stagesMs ← optNumMap o "stages_ms"
    let resources ← optNumMap o "resources"
    let generatedAt ← reqStr o "generated_at"
    Except.ok
      { platform := platform, phase := phase, model := model,
        frameCount := frameCount, elapsedSeconds := elapsedSeconds,
        fps := fps, avgLatencyMs := avgLatencyMs, stagesMs := stagesMs,
        resources := resources, generatedAt := generatedAt }
  | _ => Except.error .notAnObject

/-- Modelled from the spec: the CLI pipeline's error taxonomy at
comparison time (§6, §7): a record-loading failure or a phase mismatch,
always surfaced, never defaulted. -/
inductive PipelineError where
  | malformed (e : MalformedRecordError)
  | incomparable (e : IncomparableRecordsError)
  deriving Repr, DecidableEq

/-- Modelled from the spec: load two persisted records and compare them
(§6): a load failure aborts the comparison before any computation. -/
def compareFromJson (ja jb : Json) : Except PipelineError ComparisonResult :=
  match loadRecord ja with
  | Except.error e => Except.error (.malformed e)
  | Except.ok a =>
    match loadRecord jb with
    | Except.error e => Except.error (.malformed e)
    | Except.ok b =>
      match compareRecords a b with
      | Except.error e => Except.error (.incomparable e)
      | Except.ok r => Except.ok r

/-- Modelled from the spec: round a rational to one decimal place (§4.3
derived-metric policy). -/
def roundToTenth (q : ℚ) : ℚ := (round (q * 10) : ℚ) / 10

/-- Modelled from the spec: the report generator's derived overhead
percentage for a stage (§4.3): stage duration over total latency times
100, rounded to one decimal; guarded for a non-positive latency. -/
def overheadPct (d latency : ℚ) : ℚ :=
  if latency ≤ 0 then 0 else roundToTenth (d / latency * 100)

/-- Modelled from the spec: rendering options — destination-independent
presentation switches plus the explicitly injected "generated at"
clock value (§4.3). -/
structure RenderOptions where
  title : String
  generatedAt : String
  deriving Repr, DecidableEq

/-- Modelled from the spec: the ambient environment a renderer could
observe (wall clock, a process-level random seed); `render` is pure
given its inputs and must not read it (§4.3). -/
structure RenderEnv where
  wallClock : ℚ
  randomSeed : Nat
  deriving Repr, DecidableEq

/-- Render one compared metric as a report line. -/
def renderPair (p : MetricPair) : String :=
  p.name ++ ": A=" ++ toString p.valueA ++ " B=" ++ toString p.valueB ++
    " delta=" ++ toString p.delta ++
    (match p.relAB with
     | some r => " x" ++ toString r
     | none => "")

/-- Modelled from the spec: `render(comparison_result, options)` (§4.3):
deterministically renders the ComparisonResult to report bytes; the only
timestamp in the output is the injected "generated at" field from the
options, and the ambient environment is never consulted. -/
def render (cr : ComparisonResult) (opts : RenderOptions) (_env : RenderEnv) : String :=
  let header := opts.title ++ "\ngenerated at " ++ opts.generatedAt ++ "\n"
  let body := String.intercalate "\n" (cr.compared.map renderPair)
  let skipped := String.intercalate "\n"
    (cr.notComparable.map (fun n => "not comparable: " ++ n))
  let wins := String.intercalate "\n"
    (cr.advantages.map (fun p => "advantage " ++ p.1 ++ ": " ++ p.2))
  header ++ body ++ "\n" ++ skipped ++ "\n" ++ wins ++ "\n"

/-- A command of the Windows batch runner `src/unnamed/part_000`: an
unconditional external command, a command guarded by `if not exist`, or
a command guarded by `if errorlevel N`. -/
inductive BatCmd where
  | runCmd (name : String)
  | ifNotExistRun (file : String) (name : String)
  | ifErrorlevelRun (lvl : Nat) (name : String)
  deriving Repr, DecidableEq

/-- The batch interpreter's state: the last external command's exit code
(`errorlevel`), which files exist, and the trace of executed external
commands in order. -/
structure BatState where
  errorlevel : Nat
  fs : String → Bool
  trace : List String

/-- Execute one batch command: an executed external command sets
`errorlevel` from the environment and is appended to the trace; an
`if not exist` guard additionally creates its file; a skipped guarded
command changes nothing. -/
def execBat (env : String → Nat) (s : BatState) : BatCmd → BatState
  | .runCmd n =>
    { s with errorlevel := env n, trace := s.trace ++ [n] }
  | .ifNotExistRun f n =>
    if s.fs f then s
    else
      { errorlevel := env n,
        fs := fun x => if x = f then true else s.fs x,
        trace := s.trace ++ [n] }
  | .ifErrorlevelRun lvl n =>
    if lvl ≤ s.errorlevel then
      { s with errorlevel := env n, trace := s.trace ++ [n] }
    else s

/-- Run a batch script from a state. -/
def runBat (env : String → Nat) (s : BatState) : List BatCmd → BatState
  | [] => s
  | c :: rest => runBat env (execBat env s c) rest

/-- The Phase 1 benchmark invocation of `src/unnamed/part_000`, line 75. -/
def winPhase1 : String :=
  "python windows_pc_phase1.py --video test_video.mp4 --duration 30 --model yolov8n.pt"

/-- The Phase 3 benchmark invocation of `src/unnamed/part_000`, line 83. -/
def winPhase3 : String :=
  "python windows_pc_phase3_gpu.py --video test_video.mp4 --duration 30 --model yolov8n.pt"

/-- The external commands of the Windows batch runner
`src/unnamed/part_000`, in script order: the guarded setup steps
(results directory, virtual environment, PyTorch install on a failed
import, model download, test video), then the two benchmark phases and
the closing directory listing and pause. Only the PyTorch install is
guarded by `if errorlevel 1`; no errorlevel check separates the Phase 1
and Phase 3 invocations. -/
def winScript : List BatCmd :=
  [ .ifNotExistRun "results" "mkdir results",
    .ifNotExistRun "venv_windows" "python -m venv venv_windows",
    .runCmd "call venv_windows Scripts activate.bat",
    .runCmd "python -c import torch",
    .ifErrorlevelRun 1 "pip install torch torchvision torchaudio",
    .ifNotExistRun "yolov8n.pt" "python download yolov8n.pt",
    .ifNotExistRun "test_video.mp4" "python create test_video.mp4",
    .runCmd winPhase1,
    .runCmd winPhase3,
    .runCmd "dir results",
    .runCmd "pause" ]

/-- A command of the Jetson shell runners: an external command with no
file-level effect, or a creation step guarded by a `[ ! -f ... ]` /
`[ ! -d ... ]` existence check. -/
inductive ShCmd where
  | runSh (name : String)
  | ifNotExistCreate (file : String) (stepName : String)
  deriving Repr, DecidableEq

/-- The shell interpreter's state: the file system as a map from path to
optional content, and the trace of executed commands. -/
structure ShState where
  fs : String → Option String
  trace : List String

/-- Execute one shell command: a guarded creation step runs only when its
file is absent, writing fresh content; when the file already exists the
step is skipped entirely and the file is untouched. -/
def execSh (s : ShState) : ShCmd → ShState
  | .runSh n => { s with trace := s.trace ++ [n] }
  | .ifNotExistCreate f n =>
    match s.fs f with
    | some _ => s
    | none =>
      { fs := fun x => if x = f then some ("created by " ++ n) else s.fs x,
        trace := s.trace ++ [n] }

/-- Run a shell script from a state. -/
def runShScript (s : ShState) : List ShCmd → ShState
  | [] => s
  | c :: rest => runShScript (execSh s c) rest

/-- The creation step of each guarded setup file of the Jetson runners. -/
def createStepName (f : String) : String :=
  if f = "venv_jetson" then "python3 -m venv venv_jetson"
  else if f = "yolov8n.pt" then "python3 download yolov8n.pt"
  else if f = "test_video.mp4" then "python3 create test_video.mp4"
  else "mkdir " ++ f

/-- The commands of the first Jetson runner (`run_comparison.sh`, lines
1-125 of `compare_nano.sh`), in script order: guarded results directory,
guarded virtual environment, activation and package installs, guarded
model download, guarded test-video creation, the two benchmark phases,
the results listing and deactivation. -/
def runComparisonScript : List ShCmd :=
  [ .ifNotExistCreate "results" (createStepName "results"),
    .ifNotExistCreate "venv_jetson" (createStepName "venv_jetson"),
    .runSh "source venv_jetson/bin/activate",
    .runSh "pip install --upgrade pip setuptools wheel",
    .runSh "python3 -c import torch || pip install torch torchvision torchaudio",
    .runSh "pip install -q ultralytics opencv-python numpy",
    .ifNotExistCreate "yolov8n.pt" (createStepName "yolov8n.pt"),
    .ifNotExistCreate "test_video.mp4" (createStepName "test_video.mp4"),
    .runSh "python3 jetson_nano_phase1.py --video test_video.mp4 --duration 30 --model yolov8n.pt",
    .runSh "python3 jetson_nano_phase3_uma.py --video test_video.mp4 --duration 30 --model yolov8n.pt",
    .runSh "ls -lh results/",
    .runSh "deactivate" ]

/-- The commands of the second Jetson runner (`compare_nano.sh`, lines
126-197), in script order: guarded results directory, guarded virtual
environment, activation, one combined package install, guarded model
download, guarded test-video creation, the two benchmark phases, the
results listing and deactivation. -/
def compareNanoScript : List ShCmd :=
  [ .ifNotExistCreate "results" (createStepName "results"),
    .ifNotExistCreate "venv_jetson" (createStepName "venv_jetson"),
    .runSh "source venv_jetson/bin/activate",
    .runSh "pip install --quiet --upgrade pip ultralytics opencv-python numpy",
    .ifNotExistCreate "yolov8n.pt" (createStepName "yolov8n.pt"),
    .ifNotExistCreate "test_video.mp4" (createStepName "test_video.mp4"),
    .runSh "python3 nano_phase1.py --duration 20 --model yolov8n.pt",
    .runSh "python3 nano_phase3.py --duration 20 --model yolov8n.pt",
    .runSh "ls -lh results/*.json",
    .runSh "deactivate" ]

/-- The initial shell state over a given file system. -/
def initShState (fs : String → Option String) : ShState :=
  { fs := fs, trace := [] }

/-- The display name a shell command contributes to the trace when it
executes. -/
def shCmdName : ShCmd → String
  | .runSh n => n
  | .ifNotExistCreate _ n => n

/-- The accelerated-phase record of the spec's end-to-end scenario (§8),
platform X. -/
def recA : RunResultRecord :=
  { platform := "X", phase := "accelerated", model := "yolov8n.pt",
    frameCount := 1800, elapsedSeconds := 63,
    fps := 28.5, avgLatencyMs := 35.2,
    stagesMs := [("h2d", 5.3), ("compute", 25.1), ("d2h", 3.2), ("sync", 1.6)],
    resources := [], generatedAt := "2025-01-01T00:00:00Z" }

/-- The accelerated-phase record of the spec's end-to-end scenario (§8),
platform Y. -/
def recB : RunResultRecord :=
  { platform := "Y", phase := "accelerated", model := "yolov8n.pt",
    frameCount := 540, elapsedSeconds := 60,
    fps := 9.0, avgLatencyMs := 45.1,
    stagesMs := [("compute", 44.8), ("sync", 0.3)],
    resources := [], generatedAt := "2025-01-01T00:05:00Z" }

/-- A baseline-phase variant of the platform X record. -/
def recBaseline : RunResultRecord :=
  { recA with phase := "baseline" }

/-- The comparison result of the spec's end-to-end scenario. -/
def cmpAB : ComparisonResult :=
  (compareRecords recA recB).toOption.getD { compared := [], notComparable := [], advantages := [] }

/-- The field list of a persisted record JSON object that is missing the
required `fps` field but holds every other required field. -/
def fieldsNoFps : List (String × Json) :=
  [ ("platform", Json.str "X"), ("phase", Json.str "accelerated"),
    ("model", Json.str "yolov8n.pt"), ("frame_count", Json.num 1800),
    ("elapsed_seconds", Json.num 63), ("avg_latency_ms", Json.num 35.2),
    ("generated_at", Json.str "2025-01-01T00:00:00Z") ]

/-- A file system on which all three guarded Jetson setup files already
exist. -/
def sampleJetsonFS : String → Option String :=
  fun n =>
    if n = "test_video.mp4" then some "existing-video"
    else if n = "yolov8n.pt" then some "existing-model"
    else if n = "venv_jetson" then some "existing-venv"
    else none

/-- Key-membership characterization of the association-list lookup. -/
theorem findVal_isSome_iff (n : String) (l : List (String × ℚ)) :
    (findVal n l).isSome = true ↔ n ∈ l.map Prod.fst := by
  induction l with
  | nil => simp [findVal]
  | cons p rest ih =>
    obtain ⟨k, v⟩ := p
    by_cases hk : k = n
    · simp [findVal, hk]
    · have hk2 : ¬ n = k := fun h => hk h.symm
      simp [findVal, hk, hk2, ih]

/-- Absence characterization of the association-list lookup. -/
theorem findVal_eq_none_iff (n : String) (l : List (String × ℚ)) :
    findVal n l = none ↔ n ∉ l.map Prod.fst := by
  rw [← findVal_isSome_iff]
  cases findVal n l <;> simp

/-- C1: for every pair of RunResultRecords whose phase identifiers
differ, `compareRecords` fails with `IncomparableRecordsError` carrying the two
phases, regardless of all other field values, and no comparison is
computed. -/
theorem compare_phase_mismatch_fails (a b : RunResultRecord)
    (h : a.phase ≠ b.phase) :
    compareRecords a b = Except.error (.phaseMismatch a.phase b.phase) := by
  unfold compareRecords
  simp [h]

/-- Witness for C1: comparing the accelerated platform X record with its
baseline variant fails with the phase-mismatch error. -/
theorem compare_phase_mismatch_fails_witness :
    recA.phase ≠ recBaseline.phase ∧
    compareRecords recA recBaseline =
      Except.error (.phaseMismatch recA.phase recBaseline.phase) :=
  ⟨by decide, compare_phase_mismatch_fails recA recBaseline (by decide)⟩

/-- C2: on matching phases, a metric name appears among the compared
pairs exactly when it is present in both records' metric maps, and it is
reported as not-comparable exactly when it is present in exactly one of
them — a metric missing from one side is never paired with an implicit
zero. -/
theorem compareRecords_shared_metrics_only (a b : RunResultRecord) (r : ComparisonResult)
    (h : compareRecords a b = Except.ok r) :
    (∀ n, (∃ p ∈ r.compared, p.name = n) ↔
        (n ∈ (metricsOf a).map Prod.fst ∧ n ∈ (metricsOf b).map Prod.fst)) ∧
    (∀ n, n ∈ r.notComparable ↔
        ((n ∈ (metricsOf a).map Prod.fst ∧ n ∉ (metricsOf b).map Prod.fst) ∨
         (n ∈ (metricsOf b).map Prod.fst ∧ n ∉ (metricsOf a).map Prod.fst))) := by
  unfold compareRecords at h
  by_cases hp : a.phase = b.phase
  · rw [if_pos hp] at h
    simp only [Except.ok.injEq] at h
    subst h
    constructor
    · intro n
      constructor
      · rintro ⟨p, hpmem, hpname⟩
        simp only [List.mem_filterMap] at hpmem
        obtain ⟨q, hq, hfq⟩ := hpmem
        cases hfv : findVal q.1 (metricsOf b) with
        | none => rw [hfv] at hfq; exact absurd hfq (by simp)
        | some vb =>
          rw [hfv] at hfq
          simp only [Option.some.injEq] at hfq
          have hn : q.1 = n := by
            rw [← hfq] at hpname
            simpa [mkPair] using hpname
          refine ⟨?_, ?_⟩
          · rw [← hn]
            exact List.mem_map_of_mem Prod.fst hq
          · rw [← hn, ← findVal_isSome_iff, hfv]
            rfl
      · rintro ⟨hna, hnb⟩
        obtain ⟨q, hq, hq1⟩ := List.mem_map.mp hna
        have hsome : (findVal n (metricsOf b)).isSome = true :=
          (findVal_isSome_iff _ _).mpr hnb
        obtain ⟨vb, hvb⟩ := Option.isSome_iff_exists.mp hsome
        refine ⟨mkPair q.1 q.2 vb, ?_, by simp [mkPair, hq1]⟩
        simp only [List.mem_filterMap]
        exact ⟨q, hq, by simp [hq1, hvb]⟩
    · intro n
      simp only [List.mem_append, List.mem_filter]
      simp [Option.isNone_iff_eq_none, findVal_eq_none_iff]
  · rw [if_neg hp] at h
    exact absurd h (by simp)

/-- Witness for C2: in the spec's end-to-end scenario, `compute` is
compared (present in both records) and `h2d` is not comparable (present
only in the platform X record). -/
theorem compareRecords_shared_metrics_only_witness :
    ((∃ p ∈ cmpAB.compared, p.name = "compute") ↔
      ("compute" ∈ (metricsOf recA).map Prod.fst ∧
       "compute" ∈ (metricsOf recB).map Prod.fst)) ∧
    ("h2d" ∈ cmpAB.notComparable ↔
      (("h2d" ∈ (metricsOf recA).map Prod.fst ∧
        "h2d" ∉ (metricsOf recB).map Prod.fst) ∨
       ("h2d" ∈ (metricsOf recB).map Prod.fst ∧
        "h2d" ∉ (metricsOf recA).map Prod.fst))) :=
  ⟨(compareRecords_shared_metrics_only recA recB cmpAB (by rfl)).1 "compute",
   (compareRecords_shared_metrics_only recA recB cmpAB (by rfl)).2 "h2d"⟩

/-- A resource observation never changes the finished marker. -/
theorem observeResource_finished (rs : ResourceSample) (s : AggState) :
    (observeResource rs s).finished = s.finished := by
  unfold observeResource
  split <;> rfl

/-- A resource observation never changes the frame count. -/
theorem observeResource_frameCount (rs : ResourceSample) (s : AggState) :
    (observeResource rs s).frameCount = s.frameCount := by
  unfold observeResource
  split <;> rfl

/-- Folding a frame-free event sequence preserves the finished marker and
the frame count. -/
theorem aggFold_no_frames (tr : List AggEvent) :
    ∀ s : AggState, (∀ e ∈ tr, e.isFrame = false) →
      (tr.foldl stepAgg s).finished = s.finished ∧
      (tr.foldl stepAgg s).frameCount = s.frameCount := by
  induction tr with
  | nil => intro s _; exact ⟨rfl, rfl⟩
  | cons e rest ih =>
    intro s h
    have he : e.isFrame = false := h e (by simp)
    have hrest : ∀ x ∈ rest, x.isFrame = false := fun x hx => h x (by simp [hx])
    cases e with
    | frameEv ft => simp [AggEvent.isFrame] at he
    | resourceEv rs =>
      have hih := ih (stepAgg s (.resourceEv rs)) hrest
      rw [List.foldl_cons]
      refine ⟨?_, ?_⟩
      · rw [hih.1]
        exact observeResource_finished rs s
      · rw [hih.2]
        exact observeResource_frameCount rs s

/-- C3: finishing an aggregator that observed zero frames — however many
resource samples arrived — yields FPS = 0, an empty stages map and empty
resource fields; `finish` is a total function over rationals, so no
exception is raised and no NaN can arise. -/
theorem finish_zero_frames (tr : List AggEvent)
    (h : ∀ e ∈ tr, e.isFrame = false) :
    (finish (runAgg tr)).2.fps = 0 ∧
    (finish (runAgg tr)).2.stagesMs = [] ∧
    (finish (runAgg tr)).2.resources = [] := by
  obtain ⟨hfin, hfc⟩ := aggFold_no_frames tr initAgg h
  have hfin2 : (runAgg tr).finished = none := by unfold runAgg; rw [hfin]; rfl
  have hfc2 : (runAgg tr).frameCount = 0 := by unfold runAgg; rw [hfc]; rfl
  simp [finish, hfin2, computeMetrics, hfc2]

/-- Witness for C3: a run that saw one CPU-load sample and no frames
finishes with FPS 0 and absent stage and resource fields. -/
theorem finish_zero_frames_witness :
    (∀ e ∈ [AggEvent.resourceEv ⟨[("cpu_pct", (50 : ℚ))]⟩], e.isFrame = false) ∧
    ((finish (runAgg [AggEvent.resourceEv ⟨[("cpu_pct", (50 : ℚ))]⟩])).2.fps = 0 ∧
     (finish (runAgg [AggEvent.resourceEv ⟨[("cpu_pct", (50 : ℚ))]⟩])).2.stagesMs = [] ∧
     (finish (runAgg [AggEvent.resourceEv ⟨[("cpu_pct", (50 : ℚ))]⟩])).2.resources = []) :=
  ⟨by decide, finish_zero_frames _ (by decide)⟩

/-- C5: `finish` is idempotent — a second call returns the same state and
a bitwise-identical RunMetrics — and the aggregator is immutable after
the first call: further frame or resource observations change nothing. -/
theorem finish_idempotent (s : AggState) (ft : FrameTiming) (rs : ResourceSample) :
    (finish (finish s).1).2 = (finish s).2 ∧
    finish (finish s).1 = finish s ∧
    observe ft (finish s).1 = (finish s).1 ∧
    observeResource rs (finish s).1 = (finish s).1 := by
  cases hf : s.finished with
  | some m => simp [finish, hf, observe, observeResource]
  | none => simp [finish, hf, observe, observeResource]

/-- Removing an open stage entry permutes the open-stage list: the found
entry in front of the remainder. -/
theorem takeStage_perm (name : String) :
    ∀ (l : List (String × ℚ)) (t0 : ℚ) (rest : List (String × ℚ)),
      takeStage name l = some (t0, rest) → l.Perm ((name, t0) :: rest) := by
  intro l
  induction l with
  | nil => intro t0 rest h; exact absurd h (by simp [takeStage])
  | cons p l2 ih =>
    intro t0 rest h
    obtain ⟨k, t⟩ := p
    by_cases hk : k = name
    · rw [takeStage, if_pos hk] at h
      simp only [Option.some.injEq, Prod.mk.injEq] at h
      rw [hk, h.1, ← h.2]
    · rw [takeStage, if_neg hk] at h
      cases h2 : takeStage name l2 with
      | none => rw [h2] at h; exact absurd h (by simp)
      | some pr =>
        obtain ⟨t0x, restx⟩ := pr
        rw [h2] at h
        simp at h
        obtain ⟨h3, h4⟩ := h
        rw [← h3, ← h4]
        exact ((ih t0x restx h2).cons (k, t)).trans (List.Perm.swap (name, t0x) (k, t) restx)

/-- Name-level accounting of a successful timer run: the stages still
open plus the stages ended equal (as a multiset) the stages begun, and
the finished-stage names are exactly the ended names. -/
theorem runTimer_names (evs : List TimerEvent) :
    ∀ s s2 : TimerState, runTimer s evs = some s2 →
      ((s2.openStages.map Prod.fst : Multiset String) + (endedNames evs : Multiset String) =
        (s.openStages.map Prod.fst : Multiset String) + (begunNames evs : Multiset String)) ∧
      ((s2.doneStages.map Prod.fst : Multiset String) =
        (s.doneStages.map Prod.fst : Multiset String) + (endedNames evs : Multiset String)) := by
  induction evs with
  | nil =>
    intro s s2 h
    simp only [runTimer, Option.some.injEq] at h
    subst h
    simp [begunNames, endedNames]
  | cons e rest ih =>
    intro s s2 h
    cases e with
    | beginEv n t =>
      rw [runTimer, stepTimer] at h
      have hih := ih (beginStage n t s) s2 h
      rw [beginStage] at hih
      simp only [List.map_cons] at hih
      simp only [begunNames, endedNames, List.filterMap_cons] at hih ⊢
      refine ⟨?_, hih.2⟩
      rw [hih.1]
      simp only [← Multiset.cons_coe]
      rw [Multiset.cons_add, Multiset.add_cons]
    | endEv n t =>
      rw [runTimer, stepTimer, endStage] at h
      cases htake : takeStage n s.openStages with
      | none => rw [htake] at h; exact absurd h (by simp)
      | some pr =>
        obtain ⟨t0, rest0⟩ := pr
        rw [htake] at h
        simp only at h
        have hih := ih _ s2 h
        simp only [List.map_cons] at hih
        have hperm : (s.openStages.map Prod.fst : Multiset String) =
            (n ::ₘ (rest0.map Prod.fst : Multiset String)) := by
          have := (takeStage_perm n s.openStages t0 rest0 htake).map Prod.fst
          rw [Multiset.cons_coe]
          exact Multiset.coe_eq_coe.mpr this
        simp only [begunNames, endedNames, List.filterMap_cons] at hih ⊢
        constructor
        · rw [hperm]
          simp only [← Multiset.cons_coe]
          rw [Multiset.cons_add, Multiset.add_cons, ← hih.1]
        · rw [hih.2]
          simp only [← Multiset.cons_coe]
          rw [Multiset.cons_add, Multiset.add_cons]

/-- C4: for a frame driven from a fresh timer, `finalize_frame` fails
(with `IncompleteFrameError`) exactly when some begun stage was never
ended, and on success the FrameTiming's stage map carries exactly the
begun-and-ended stage names — never a stage that was not started. -/
theorem finalizeFrame_exact (idx : Nat) (evs : List TimerEvent) (s : TimerState) (tEnd : ℚ)
    (h : runTimer (initTimer idx) evs = some s) :
    ((∃ e, finalizeFrame tEnd s = Except.error e) ↔
        ((endedNames evs : Multiset String) ≠ (begunNames evs : Multiset String))) ∧
    (∀ ft, finalizeFrame tEnd s = Except.ok ft →
        ((ft.stages.map Prod.fst : Multiset String) = (begunNames evs : Multiset String) ∧
         ∀ n ∈ ft.stages.map Prod.fst, n ∈ begunNames evs)) := by
  obtain ⟨h1, h2⟩ := runTimer_names evs (initTimer idx) s h
  simp only [initTimer, List.map_nil, Multiset.coe_nil, zero_add] at h1 h2
  have hopen : s.openStages = [] ↔
      (endedNames evs : Multiset String) = (begunNames evs : Multiset String) := by
    constructor
    · intro h0
      rw [h0] at h1
      simpa using h1
    · intro heq
      rw [heq] at h1
      have hz : (s.openStages.map Prod.fst : Multiset String) = 0 :=
        add_left_eq_self.mp h1
      have hz2 : s.openStages.map Prod.fst = [] := (Multiset.coe_eq_zero _).mp hz
      exact List.map_eq_nil_iff.mp hz2
  by_cases hnil : s.openStages = []
  · have heq := hopen.mp hnil
    constructor
    · constructor
      · rintro ⟨e, he⟩
        rw [finalizeFrame, if_pos hnil] at he
        exact absurd he (by simp)
      · intro hne
        exact absurd heq hne
    · intro ft hok
      rw [finalizeFrame, if_pos hnil] at hok
      simp only [Except.ok.injEq] at hok
      subst hok
      have hst : ((s.doneStages.reverse.map Prod.fst : List String) : Multiset String) =
          (begunNames evs : Multiset String) := by
        rw [List.map_reverse]
        rw [Multiset.coe_reverse]
        rw [h2, heq]
      refine ⟨hst, ?_⟩
      intro n hn
      have : n ∈ ((begunNames evs : List String) : Multiset String) := by
        rw [← hst]
        exact Multiset.mem_coe.mpr hn
      exact Multiset.mem_coe.mp this
  · constructor
    · constructor
      · intro _
        intro heq
        exact hnil (hopen.mpr heq)
      · intro _
        rw [finalizeFrame, if_neg hnil]
        exact ⟨.stillOpen (s.openStages.map Prod.fst), rfl⟩
    · intro ft hok
      rw [finalizeFrame, if_neg hnil] at hok
      exact absurd hok (by simp)

/-- Witness for C4: a frame whose `compute` stage (duration 5, within the
total latency) is begun and ended finalizes to a stage map holding
exactly `compute`. -/
theorem finalizeFrame_exact_witness :
    runTimer (initTimer 0) [TimerEvent.beginEv "compute" 0, TimerEvent.endEv "compute" 5] =
      some { frameIndex := 0, openStages := [], doneStages := [("compute", 5)] } ∧
    (((∃ e, finalizeFrame 5
          { frameIndex := 0, openStages := [], doneStages := [("compute", 5)] } =
            Except.error e) ↔
        ((endedNames [TimerEvent.beginEv "compute" 0, TimerEvent.endEv "compute" 5] :
            Multiset String) ≠
          (begunNames [TimerEvent.beginEv "compute" 0, TimerEvent.endEv "compute" 5] :
            Multiset String))) ∧
      (∀ ft, finalizeFrame 5
          { frameIndex := 0, openStages := [], doneStages := [("compute", 5)] } =
            Except.ok ft →
        ((ft.stages.map Prod.fst : Multiset String) =
            (begunNames [TimerEvent.beginEv "compute" 0, TimerEvent.endEv "compute" 5] :
              Multiset String) ∧
         ∀ n ∈ ft.stages.map Prod.fst,
            n ∈ begunNames [TimerEvent.beginEv "compute" 0, TimerEvent.endEv "compute" 5]))) :=
  ⟨by norm_num [runTimer, stepTimer, endStage, takeStage, beginStage, initTimer],
   finalizeFrame_exact 0 [TimerEvent.beginEv "compute" 0, TimerEvent.endEv "compute" 5]
     { frameIndex := 0, openStages := [], doneStages := [("compute", 5)] } 5
     (by norm_num [runTimer, stepTimer, endStage, takeStage, beginStage, initTimer])⟩

/-- C6: `render` is deterministic — with the "generated at" clock
injected through the options, the output is a pure function of the
ComparisonResult and the options, and two calls under arbitrary ambient
environments produce byte-identical report output. -/
theorem render_deterministic (cr : ComparisonResult) (opts : RenderOptions)
    (e1 e2 : RenderEnv) :
    render cr opts e1 = render cr opts e2 ∧
    (render cr opts e1).toUTF8.data = (render cr opts e2).toUTF8.data := by
  have h : render cr opts e1 = render cr opts e2 := rfl
  exact ⟨h, by rw [h]⟩

/-- C7: a persisted record JSON object with no `fps` field fails to load
with a `MalformedRecordError` — the field is never defaulted to 0 — and
any comparison using it aborts with that load error. -/
theorem loadRecord_missing_fps (o : List (String × Json))
    (h : lookupField "fps" o = none) :
    (∃ e, loadRecord (Json.obj o) = Except.error e) ∧
    (∀ jb, ∃ e, compareFromJson (Json.obj o) jb =
        Except.error (PipelineError.malformed e)) := by
  have hfps : reqNum o "fps" = Except.error (.missingField "fps") := by
    rw [reqNum, h]
  have hmain : ∃ e, loadRecord (Json.obj o) = Except.error e := by
    cases hl : loadRecord (Json.obj o) with
    | error e => exact ⟨e, rfl⟩
    | ok r =>
      exfalso
      simp only [loadRecord, bind, Except.bind, hfps] at hl
      repeat' split at hl
      all_goals simp_all
  refine ⟨hmain, ?_⟩
  intro jb
  obtain ⟨e, he⟩ := hmain
  exact ⟨e, by simp [compareFromJson, he]⟩

/-- Witness for C7: the sample record object that lacks `fps` fails to
load and its comparison against itself aborts with the load error. -/
theorem loadRecord_missing_fps_witness :
    lookupField "fps" fieldsNoFps = none ∧
    ((∃ e, loadRecord (Json.obj fieldsNoFps) = Except.error e) ∧
     (∀ jb, ∃ e, compareFromJson (Json.obj fieldsNoFps) jb =
        Except.error (PipelineError.malformed e))) :=
  ⟨by rfl, loadRecord_missing_fps fieldsNoFps (by rfl)⟩

/-- C8: for positive total latency, the report generator's overhead
percentage for a stage is exactly the stage duration over the total
latency times 100 rounded to one decimal place, hence within 0.05 of the
unrounded percentage. -/
theorem overheadPct_rounds (d latency : ℚ) (h : 0 < latency) :
    overheadPct d latency = (round (d / latency * 100 * 10) : ℚ) / 10 ∧
    |overheadPct d latency - d / latency * 100| ≤ 1 / 20 := by
  have hn : ¬ latency ≤ 0 := not_le.mpr h
  refine ⟨by rw [overheadPct, if_neg hn, roundToTenth], ?_⟩
  rw [overheadPct, if_neg hn, roundToTenth]
  have habs : |(round (d / latency * 100 * 10) : ℚ) - d / latency * 100 * 10| ≤ 1 / 2 := by
    have h2 := abs_sub_round (d / latency * 100 * 10)
    rw [abs_sub_comm] at h2
    exact h2
  have hsplit : (round (d / latency * 100 * 10) : ℚ) / 10 - d / latency * 100 =
      ((round (d / latency * 100 * 10) : ℚ) - d / latency * 100 * 10) / 10 := by
    ring
  rw [hsplit, abs_div]
  have h10 : |(10 : ℚ)| = 10 := by norm_num
  rw [h10]
  have hdiv : |(round (d / latency * 100 * 10) : ℚ) - d / latency * 100 * 10| / 10 ≤
      (1 / 2) / 10 := by
    apply div_le_div_of_nonneg_right habs
    norm_num
  linarith

/-- Witness for C8: the documented example — stage overhead 10.1 ms of a
35.2 ms total latency — reports 28.7 percent. -/
theorem overheadPct_rounds_witness :
    (0 : ℚ) < 35.2 ∧
    overheadPct 10.1 35.2 = (round ((10.1 : ℚ) / 35.2 * 100 * 10) : ℚ) / 10 ∧
    |overheadPct 10.1 35.2 - (10.1 : ℚ) / 35.2 * 100| ≤ 1 / 20 ∧
    overheadPct 10.1 35.2 = 28.7 :=
  ⟨by norm_num, (overheadPct_rounds 10.1 35.2 (by norm_num)).1,
   (overheadPct_rounds 10.1 35.2 (by norm_num)).2,
   by norm_num [overheadPct, roundToTenth, round_eq]⟩

/-- Running a batch script over concatenated command lists runs the
second list from the state the first one produced. -/
theorem runBat_append (env : String → Nat) :
    ∀ (l1 l2 : List BatCmd) (s : BatState),
      runBat env s (l1 ++ l2) = runBat env (runBat env s l1) l2 := by
  intro l1
  induction l1 with
  | nil => intro l2 s; rfl
  | cons c rest ih =>
    intro l2 s
    rw [List.cons_append, runBat, runBat]
    exact ih l2 (execBat env s c)

/-- C9: in the Windows batch runner, the Phase 3 benchmark runs
unconditionally after Phase 1: whatever exit codes the environment
assigns to every command — including a non-zero Phase 1 exit — and
whatever files exist, the executed-command trace ends with Phase 1
followed immediately by Phase 3 and the closing steps. -/
theorem winScript_phase3_unconditional (env : String → Nat) (fs : String → Bool) :
    ∃ pre, (runBat env { errorlevel := 0, fs := fs, trace := [] } winScript).trace =
      pre ++ [winPhase1, winPhase3, "dir results", "pause"] := by
  refine ⟨(runBat env { errorlevel := 0, fs := fs, trace := [] } (winScript.take 7)).trace, ?_⟩
  have hdrop : winScript.drop 7 =
      [BatCmd.runCmd winPhase1, BatCmd.runCmd winPhase3,
       BatCmd.runCmd "dir results", BatCmd.runCmd "pause"] := rfl
  have hsplit : winScript = winScript.take 7 ++ winScript.drop 7 :=
    (List.take_append_drop 7 winScript).symm
  conv_lhs => rw [hsplit]
  rw [runBat_append, hdrop]
  simp [runBat, execBat]

/-- No shell command overwrites an existing file: every creation step is
guarded by an existence check. -/
theorem execSh_preserves (c : ShCmd) (s : ShState) (f v : String)
    (h : s.fs f = some v) : (execSh s c).fs f = some v := by
  cases c with
  | runSh n => exact h
  | ifNotExistCreate file n =>
    simp only [execSh]
    cases hf : s.fs file with
    | some w => simp [hf, h]
    | none =>
      by_cases hx : f = file
      · rw [hx, hf] at h
        cases h
      · simp [hf, hx, h]

/-- Running any shell script preserves every existing file's content. -/
theorem runShScript_preserves (cmds : List ShCmd) :
    ∀ (s : ShState) (f v : String), s.fs f = some v →
      (runShScript s cmds).fs f = some v := by
  induction cmds with
  | nil => intro s f v h; exact h
  | cons c rest ih =>
    intro s f v h
    rw [runShScript]
    exact ih _ f v (execSh_preserves c s f v h)

/-- If a file exists and the only commands carrying a given step name are
guarded creations of that very file, that step name never enters the
trace. -/
theorem runShScript_no_create (cmds : List ShCmd) :
    ∀ (s : ShState) (f v n : String), s.fs f = some v → n ∉ s.trace →
      (∀ c ∈ cmds, shCmdName c = n → c = ShCmd.ifNotExistCreate f n) →
      n ∉ (runShScript s cmds).trace := by
  induction cmds with
  | nil => intro s f v n _ hnot _; exact hnot
  | cons c rest ih =>
    intro s f v n hfs hnot honly
    have htail : ∀ c2 ∈ rest, shCmdName c2 = n → c2 = ShCmd.ifNotExistCreate f n :=
      fun c2 h2 => honly c2 (List.mem_cons_of_mem _ h2)
    rw [runShScript]
    cases c with
    | runSh m =>
      have hm : ¬ n = m := by
        intro hmn
        have h2 := honly (.runSh m) (List.mem_cons_self _ _) (by simp [shCmdName, hmn])
        exact ShCmd.noConfusion h2
      apply ih _ f v n (execSh_preserves _ s f v hfs) ?_ htail
      simp [execSh, hnot, hm]
    | ifNotExistCreate cf m =>
      cases hcf : s.fs cf with
      | some w =>
        have hexec : execSh s (.ifNotExistCreate cf m) = s := by
          simp [execSh, hcf]
        rw [hexec]
        exact ih s f v n hfs hnot htail
      | none =>
        have hne : cf ≠ f := by
          intro hcff
          rw [hcff, hfs] at hcf
          cases hcf
        have hm : ¬ n = m := by
          intro hmn
          have h2 := honly (.ifNotExistCreate cf m) (List.mem_cons_self _ _)
            (by simp [shCmdName, hmn])
          injection h2 with e1 e2
          exact hne e1
        apply ih _ f v n (execSh_preserves _ s f v hfs) ?_ htail
        simp [execSh, hcf, hnot, hm]

/-- C10: the Jetson runners' setup steps are idempotent at the file
level: if `test_video.mp4`, `yolov8n.pt` or the virtual-environment
directory already exists when either script starts, its creation step is
skipped (its step never appears in the trace) and the existing file's
content is left unchanged. -/
theorem jetson_setup_guards_idempotent (fs : String → Option String) (f v : String)
    (hf : f = "test_video.mp4" ∨ f = "yolov8n.pt" ∨ f = "venv_jetson")
    (h : fs f = some v) :
    ((runShScript (initShState fs) runComparisonScript).fs f = some v ∧
     createStepName f ∉ (runShScript (initShState fs) runComparisonScript).trace) ∧
    ((runShScript (initShState fs) compareNanoScript).fs f = some v ∧
     createStepName f ∉ (runShScript (initShState fs) compareNanoScript).trace) := by
  have hinit : (initShState fs).fs f = some v := h
  have hnil : createStepName f ∉ (initShState fs).trace := by
    simp [initShState]
  refine ⟨⟨runShScript_preserves _ _ f v hinit, ?_⟩,
          ⟨runShScript_preserves _ _ f v hinit, ?_⟩⟩ <;>
    (apply runShScript_no_create _ _ f v _ hinit hnil;
     rcases hf with hf | hf | hf <;> subst hf <;> decide)

/-- Witness for C10: with all three setup files already present, both
Jetson runners leave `test_video.mp4` unchanged and never execute its
creation step. -/
theorem jetson_setup_guards_idempotent_witness :
    sampleJetsonFS "test_video.mp4" = some "existing-video" ∧
    (((runShScript (initShState sampleJetsonFS) runComparisonScript).fs "test_video.mp4" =
        some "existing-video" ∧
      createStepName "test_video.mp4" ∉
        (runShScript (initShState sampleJetsonFS) runComparisonScript).trace) ∧
     ((runShScript (initShState sampleJetsonFS) compareNanoScript).fs "test_video.mp4" =
        some "existing-video" ∧
      createStepName "test_video.mp4" ∉
        (runShScript (initShState sampleJetsonFS) compareNanoScript).trace)) :=
  ⟨by rfl,
   jetson_setup_guards_idempotent sampleJetsonFS "test_video.mp4" "existing-video"
     (Or.inl rfl) (by rfl)⟩
